import Mathlib

/-!
Verification of the buildah-backed container lifecycle manager of ansible-bender
(`ansible_bender/builders/buildah_builder.py`).

The external world is modelled by an oracle `Env`: whether the two external
binaries resolve, the outcome of running each external command line, and the
JSON parser. Every embedded operation returns a pair of an `Except Err`
result (Python exceptions become `Except.error`) and a `Trace`: the list of
external command lines it invoked, in order.
-/

/-- An external command line (argv), e.g. `["buildah", "rm", "cont"]`. -/
abbrev Argv := List String

/-- The ordered list of external command lines an operation invoked. -/
abbrev Trace := List Argv

/-- Outcome of running one external command: non-zero exit
(`subprocess.CalledProcessError`) or success with captured stdout. -/
inductive RunResult where
  | procFail
  | output (s : String)
deriving DecidableEq, Repr

/-- A parsed metadata document: a flat key/value view of the JSON document
returned by `buildah inspect` (the only field ever accessed is a string). -/
abbrev Metadata := List (String × String)

/-- Python exceptions raised by the embedded code. -/
inductive Err where
  /-- `subprocess.CalledProcessError` raised by `run_cmd` (the spec's
  `ExternalCommandFailed`), carrying the command line. -/
  | externalCommandFailed (argv : Argv)
  /-- The spec's `DependencyMissing`, naming the binary. -/
  | dependencyMissing (binary : String)
  /-- `json.JSONDecodeError` raised by `json.loads`, carrying the input. -/
  | jsonDecodeError (s : String)
  /-- `RuntimeError("no python interpreter found in image %s")`
  (the spec's `NoInterpreterFound`), naming the image. -/
  | noInterpreterFound (image : String)
deriving DecidableEq, Repr

/-- The oracle for the host environment. -/
structure Env where
  /-- does the `buildah` binary resolve on `PATH`? -/
  buildah_resolves : Bool
  /-- does the `podman` binary resolve on `PATH`? -/
  podman_resolves : Bool
  /-- outcome of executing a command line as an external process -/
  run : Argv → RunResult
  /-- `json.loads`: `none` means the input is not valid JSON -/
  parse_json : String → Option Metadata

/-- Truthiness of a Python value modelled as `Option String`:
`None` and `""` are falsy. -/
def pytruthy : Option String → Bool
  | none => false
  | some s => !(s == "")

/-- `utils.run_cmd` (named `runCmd` here): execute an external process; on non-zero exit raise
`CalledProcessError`. -/
def runCmd (env : Env) (argv : Argv) : Except Err String × Trace :=
  match env.run argv with
  | .procFail => (.error (.externalCommandFailed argv), [argv])
  | .output s => (.ok s, [argv])

/-- Modelled from the spec: `buildah_command_exists` lives in
`ansible_bender/utils.py`, which is not under `src/`; per §4.5 it verifies the
build-engine binary resolves and otherwise fails fast with `DependencyMissing`
naming the binary. -/
def buildah_command_exists (env : Env) : Except Err Unit :=
  if env.buildah_resolves then .ok () else .error (.dependencyMissing "buildah")

/-- Modelled from the spec: `podman_command_exists` lives in
`ansible_bender/utils.py`, which is not under `src/`; per §4.5 it verifies the
run-engine binary resolves and otherwise fails fast with `DependencyMissing`
naming the binary. -/
def podman_command_exists (env : Env) : Except Err Unit :=
  if env.podman_resolves then .ok () else .error (.dependencyMissing "podman")

/-- Modelled from the spec: `graceful_get` lives in `ansible_bender/utils.py`,
which is not under `src/`; per §4.2 and §9 it is a defensive optional-field
accessor over the metadata document that returns absence when the document or
the key is missing and never raises. -/
def graceful_get (metadata : Option Metadata) (key : String) : Option String :=
  match metadata with
  | none => none
  | some m => m.lookup key

/-- `inspect_buildah_resource`: run `buildah inspect -t <type> <id>`;
a `CalledProcessError` (resource does not exist) is caught and turned into
`None`; on success the output is parsed with `json.loads`, whose failure
propagates. -/
def inspect_buildah_resource (env : Env) (resource_type resource_id : String) :
    Except Err (Option Metadata) × Trace :=
  let argv : Argv := ["buildah", "inspect", "-t", resource_type, resource_id]
  match env.run argv with
  | .procFail => (.ok none, [argv])
  | .output s =>
    match env.parse_json s with
    | none => (.error (.jsonDecodeError s), [argv])
    | some m => (.ok (some m), [argv])

/-- `get_buildah_image_id`: inspect as type `"image"` and extract the
`FromImageID` field with `graceful_get`. -/
def get_buildah_image_id (env : Env) (container_image : String) :
    Except Err (Option String) × Trace :=
  match inspect_buildah_resource env "image" container_image with
  | (.error e, t) => (.error e, t)
  | (.ok metadata, t) => (.ok (graceful_get metadata "FromImageID"), t)

/-- `pull_buildah_image`: `podman pull <image>`. -/
def pull_buildah_image (env : Env) (container_image : String) :
    Except Err String × Trace :=
  runCmd env ["podman", "pull", container_image]

/-- `podman_run_cmd` (named `podmanRunCmd` here): `podman run --rm <image> <cmd...>`; raises when the
command fails. -/
def podmanRunCmd (env : Env) (container_image : String) (cmd : List String) :
    Except Err String × Trace :=
  runCmd env (["podman", "run", "--rm", container_image] ++ cmd)

/-- `buildah`: run `buildah <command> <args_and_opts...>`. -/
def buildah (env : Env) (command : String) (args_and_opts : List String) :
    Except Err String × Trace :=
  runCmd env (["buildah", command] ++ args_and_opts)

/-- `create_buildah_container`: `buildah from` with optional bind-mount
arguments and the chosen container name. An absent/empty `build_volumes`
(Python `None` or `[]`, both falsy) contributes no arguments. -/
def create_buildah_container (env : Env) (container_image container_name : String)
    (build_volumes : List String) : Except Err String × Trace :=
  let args := (if build_volumes.isEmpty then [] else ["-v"] ++ build_volumes)
              ++ ["--name", container_name, container_image]
  buildah env "from" args

/-- The `config_args` list assembled by `configure_buildah_container`, in the
source's order: working dir, env vars, labels, user, cmd, ports, volumes.
Falsy values (Python `None`, `""`, empty dict/list) contribute nothing. -/
def configArgsOf (working_dir : Option String) (env_vars labels : List (String × String))
    (user cmd : Option String) (ports volumes : List String) : List String :=
  (if pytruthy working_dir then ["--workingdir", working_dir.getD ""] else [])
  ++ (env_vars.map (fun kv => ["-e", kv.1 ++ "=" ++ kv.2])).flatten
  ++ (labels.map (fun kv => ["-l", kv.1 ++ "=" ++ kv.2])).flatten
  ++ (if pytruthy user then ["--user", user.getD ""] else [])
  ++ (if pytruthy cmd then ["--cmd", cmd.getD ""] else [])
  ++ (ports.map (fun p => ["-p", p])).flatten
  ++ (volumes.map (fun v => ["-v", v])).flatten

/-- `configure_buildah_container`: apply metadata to the working container via
one `buildah config` invocation — skipped entirely when `config_args` is
empty — and return the container name. -/
def configure_buildah_container (env : Env) (container_name : String)
    (working_dir : Option String) (env_vars labels : List (String × String))
    (user cmd : Option String) (ports volumes : List String) :
    Except Err String × Trace :=
  let config_args :=
    configArgsOf working_dir env_vars labels user cmd ports volumes
  if config_args.isEmpty then (.ok container_name, [])
  else
    match buildah env "config" (config_args ++ [container_name]) with
    | (.error e, t) => (.error e, t)
    | (.ok _, t) => (.ok container_name, t)

/-- The metadata block of a Build Specification (`ImageMetadata` in
ansible-bender, not under `src/`): the fields `BuildahBuilder` reads from
`self.build.metadata`. Dict/list fields are modelled as lists (Python `None`
and the empty collection are equally falsy); string fields as `Option String`. -/
structure ImageMetadata where
  working_dir : Option String
  env_vars : List (String × String)
  labels : List (String × String)
  user : Option String
  cmd : Option String
  ports : List String
  volumes : List String

/-- The Build Specification (`Build` in ansible-bender, not under `src/`): the
fields `BuildahBuilder` reads. `base_layer` is the layer the working container
is created from (initially the base image). Per §3 of the spec the
specification also carries the prioritized candidate interpreter paths
(`python_interpr_prio`, supplied through the `Builder` base class). -/
structure Build where
  target_image : String
  base_image : String
  base_layer : String
  metadata : ImageMetadata
  python_interpr_prio : List String

/-- The state of a `BuildahBuilder` instance after `__init__`. -/
structure BuildahBuilder where
  build : Build
  target_image : String
  ansible_host : String

/-- `BuildahBuilder.__init__`: store the build, set `target_image` and the
working-container name `ansible_host = target_image + "-cont"`, then check the
`buildah` binary resolves. -/
def BuildahBuilder.init (env : Env) (build : Build) : Except Err BuildahBuilder :=
  let b : BuildahBuilder :=
    { build := build, target_image := build.target_image,
      ansible_host := build.target_image ++ "-cont" }
  match buildah_command_exists env with
  | .error e => .error e
  | .ok _ => .ok b

/-- `BuildahBuilder.create`: create the working container from the current base
layer, then apply the pre-commit metadata (working dir, env vars, ports,
labels — not user, cmd or volumes) in one configuration call. -/
def BuildahBuilder.create (b : BuildahBuilder) (env : Env)
    (build_volumes : List String) : Except Err Unit × Trace :=
  match create_buildah_container env b.build.base_layer b.ansible_host build_volumes with
  | (.error e, t) => (.error e, t)
  | (.ok _, t1) =>
    match configure_buildah_container env b.ansible_host b.build.metadata.working_dir
        b.build.metadata.env_vars b.build.metadata.labels none none
        b.build.metadata.ports [] with
    | (.error e, t2) => (.error e, t1 ++ t2)
    | (.ok _, t2) => (.ok (), t1 ++ t2)

/-- The guard of the second configuration phase in `BuildahBuilder.commit`:
`self.build.metadata.user or self.build.metadata.cmd or
self.build.metadata.volumes` (Python truthiness). -/
def commitCond (m : ImageMetadata) : Bool :=
  pytruthy m.user || pytruthy m.cmd || !m.volumes.isEmpty

/-- `BuildahBuilder.commit`: when user, cmd or volumes are set, apply them in a
second configuration call; then `buildah commit` the working container to
`image_name` and return `get_image_id(image_name)`. -/
def BuildahBuilder.commit (b : BuildahBuilder) (env : Env) (image_name : String) :
    Except Err (Option String) × Trace :=
  let rest : Trace → Except Err (Option String) × Trace := fun t1 =>
    match buildah env "commit" [b.ansible_host, image_name] with
    | (.error e, t2) => (.error e, t1 ++ t2)
    | (.ok _, t2) =>
      match get_buildah_image_id env image_name with
      | (r, t3) => (r, t1 ++ t2 ++ t3)
  if commitCond b.build.metadata then
    match configure_buildah_container env b.ansible_host none [] []
        b.build.metadata.user b.build.metadata.cmd [] b.build.metadata.volumes with
    | (.error e, t) => (.error e, t)
    | (.ok _, t1) => rest t1
  else rest []

/-- `BuildahBuilder.clean`: remove the working container with `buildah rm`. -/
def BuildahBuilder.clean (b : BuildahBuilder) (env : Env) :
    Except Err String × Trace :=
  buildah env "rm" [b.ansible_host]

/-- `BuildahBuilder.swap_working_container`: `clean()` then `create()` with no
volumes. -/
def BuildahBuilder.swap_working_container (b : BuildahBuilder) (env : Env) :
    Except Err Unit × Trace :=
  match b.clean env with
  | (.error e, t) => (.error e, t)
  | (.ok _, t1) =>
    match b.create env [] with
    | (r, t2) => (r, t1 ++ t2)

/-- `BuildahBuilder.get_image_id`: delegate to `get_buildah_image_id`. -/
def BuildahBuilder.get_image_id (b : BuildahBuilder) (env : Env)
    (image_name : String) : Except Err (Option String) × Trace :=
  get_buildah_image_id env image_name

/-- `BuildahBuilder.is_image_present`: `bool(self.get_image_id(image_reference))`. -/
def BuildahBuilder.is_image_present (b : BuildahBuilder) (env : Env)
    (image_reference : String) : Except Err Bool × Trace :=
  match b.get_image_id env image_reference with
  | (.error e, t) => (.error e, t)
  | (.ok o, t) => (.ok (pytruthy o), t)

/-- `BuildahBuilder.pull`: check the `podman` binary resolves, then
`podman pull` the base image. -/
def BuildahBuilder.pull (b : BuildahBuilder) (env : Env) :
    Except Err Unit × Trace :=
  match podman_command_exists env with
  | .error e => (.error e, [])
  | .ok _ =>
    match pull_buildah_image env b.build.base_image with
    | (.error e, t) => (.error e, t)
    | (.ok _, t) => (.ok (), t)

/-- The probe loop of `BuildahBuilder.find_python_interpreter`: try
`ls <path>` inside a throwaway run of the base image for each candidate in
order; a `CalledProcessError` is caught and the loop continues; the first
success returns its path; exhaustion raises `RuntimeError` naming the image. -/
def findPythonLoop (env : Env) (base_image : String) :
    List String → Except Err String × Trace
  | [] => (.error (.noInterpreterFound base_image), [])
  | i :: rest =>
    match podmanRunCmd env base_image ["ls", i] with
    | (.error _, t) =>
      match findPythonLoop env base_image rest with
      | (r, t2) => (r, t ++ t2)
    | (.ok _, t) => (.ok i, t)

/-- `BuildahBuilder.find_python_interpreter`: probe
`self.python_interpr_prio` in order against the base image. -/
def BuildahBuilder.find_python_interpreter (b : BuildahBuilder) (env : Env) :
    Except Err String × Trace :=
  findPythonLoop env b.build.base_image b.build.python_interpr_prio

/-- Does an external command line invoke `buildah config`? -/
def isConfigCmd (argv : Argv) : Bool := argv.take 2 == ["buildah", "config"]

/-- Does the probe of candidate interpreter `path` inside a throwaway run of
`image` succeed in environment `env`? -/
def probeOk (env : Env) (image path : String) : Bool :=
  match env.run ["podman", "run", "--rm", image, "ls", path] with
  | .procFail => false
  | .output _ => true

/-- A build-specification metadata block exercising every field. -/
def mdFull : ImageMetadata :=
  { working_dir := some "/src", env_vars := [("X", "1")], labels := [("k", "v")],
    user := some "app", cmd := some "run", ports := ["8080"], volumes := ["/data"] }

/-- The spec's scenario: base image `fedora:39`, target `myapp:latest`. -/
def build0 : Build :=
  { target_image := "myapp:latest", base_image := "fedora:39",
    base_layer := "fedora:39", metadata := mdFull,
    python_interpr_prio := ["/usr/bin/python3", "/usr/bin/python2", "/usr/bin/python"] }

/-- The builder state `BuildahBuilder.init` produces for `build0`. -/
def builder0 : BuildahBuilder :=
  { build := build0, target_image := "myapp:latest",
    ansible_host := "myapp:latest-cont" }

/-- A host where both binaries resolve, every external command succeeds, and
inspection metadata carries `FromImageID`. -/
def envOk : Env :=
  { buildah_resolves := true, podman_resolves := true,
    run := fun _ => .output "", parse_json := fun _ => some [("FromImageID", "sha256:abc")] }

/-- A host where every external command exits non-zero. -/
def envProcFail : Env :=
  { buildah_resolves := true, podman_resolves := true,
    run := fun _ => .procFail, parse_json := fun _ => none }

/-- A host where the run-engine binary does not resolve but commands
nevertheless succeed when attempted. -/
def envNoPodman : Env :=
  { buildah_resolves := true, podman_resolves := false,
    run := fun _ => .output "", parse_json := fun _ => some [] }

/-- A host where neither binary resolves. -/
def envNoBinaries : Env :=
  { buildah_resolves := false, podman_resolves := false,
    run := fun _ => .procFail, parse_json := fun _ => none }

/-- A host whose inspection command succeeds but prints invalid JSON. -/
def envBadJson : Env :=
  { buildah_resolves := true, podman_resolves := true,
    run := fun _ => .output "notjson", parse_json := fun _ => none }

/-- A host whose inspection metadata lacks the `FromImageID` field. -/
def envNoField : Env :=
  { buildah_resolves := true, podman_resolves := true,
    run := fun _ => .output "out", parse_json := fun _ => some [("Foo", "bar")] }

/-- A host whose inspection metadata carries an empty `FromImageID`. -/
def envEmptyId : Env :=
  { buildah_resolves := true, podman_resolves := true,
    run := fun _ => .output "j", parse_json := fun _ => some [("FromImageID", "")] }

section Helpers

/-- `runCmd` always records exactly the one command line it ran. -/
theorem runCmd_trace (env : Env) (argv : Argv) : (runCmd env argv).2 = [argv] := by
  unfold runCmd; cases env.run argv <;> rfl

/-- The `buildah` wrapper records exactly one `buildah <command>` line. -/
theorem buildah_trace (env : Env) (c : String) (a : List String) :
    (buildah env c a).2 = [["buildah", c] ++ a] := by
  unfold buildah; rw [runCmd_trace]

/-- `create_buildah_container` records exactly its one `buildah from` line. -/
theorem create_buildah_container_trace (env : Env) (img name : String)
    (bv : List String) :
    (create_buildah_container env img name bv).2 =
      [["buildah", "from"] ++ (if bv.isEmpty then [] else ["-v"] ++ bv)
        ++ ["--name", name, img]] := by
  unfold create_buildah_container; rw [buildah_trace]; simp

/-- `configure_buildah_container` records no command when `config_args` is
empty, and exactly one `buildah config` line otherwise. -/
theorem configure_trace_eq (env : Env) (name : String) (wd : Option String)
    (ev lb : List (String × String)) (u c : Option String) (p v : List String) :
    (configure_buildah_container env name wd ev lb u c p v).2 =
      if (configArgsOf wd ev lb u c p v).isEmpty then []
      else [["buildah", "config"] ++ configArgsOf wd ev lb u c p v ++ [name]] := by
  unfold configure_buildah_container
  split
  · simp [*]
  · rename_i hne
    simp only [if_neg hne]
    rcases hb : buildah env "config" (configArgsOf wd ev lb u c p v ++ [name])
      with ⟨r, t⟩
    have ht : t = [["buildah", "config"] ++ configArgsOf wd ev lb u c p v ++ [name]] := by
      have := buildah_trace env "config" (configArgsOf wd ev lb u c p v ++ [name])
      rw [hb] at this
      simpa using this
    cases r <;> simp [ht]

/-- When no external command fails, `configure_buildah_container` returns the
container name. -/
theorem configure_ok_of_run (env : Env)
    (h : ∀ argv, env.run argv ≠ RunResult.procFail) (name : String)
    (wd : Option String) (ev lb : List (String × String)) (u c : Option String)
    (p v : List String) :
    (configure_buildah_container env name wd ev lb u c p v).1 = .ok name := by
  simp only [configure_buildah_container]
  split
  · rfl
  · rcases hb : buildah env "config" (configArgsOf wd ev lb u c p v ++ [name])
      with ⟨r, t⟩
    unfold buildah runCmd at hb
    rcases hr : env.run (["buildah", "config"]
        ++ (configArgsOf wd ev lb u c p v ++ [name])) with _ | s
    · exact absurd hr (h _)
    · rw [hr] at hb
      cases hb
      rfl

/-- `inspect_buildah_resource` records exactly its one `buildah inspect` line. -/
theorem inspect_trace (env : Env) (rt rid : String) :
    (inspect_buildah_resource env rt rid).2 =
      [["buildah", "inspect", "-t", rt, rid]] := by
  simp only [inspect_buildah_resource]
  rcases env.run ["buildah", "inspect", "-t", rt, rid] with _ | s
  · rfl
  · dsimp only
    rcases env.parse_json s with _ | m <;> rfl

/-- `get_buildah_image_id` records exactly one `buildah inspect` line. -/
theorem get_image_id_trace (env : Env) (img : String) :
    (get_buildah_image_id env img).2 =
      [["buildah", "inspect", "-t", "image", img]] := by
  unfold get_buildah_image_id
  rcases hi : inspect_buildah_resource env "image" img with ⟨r, t⟩
  have := inspect_trace env "image" img
  rw [hi] at this
  simp at this
  cases r <;> simpa using this

end Helpers

/-- C9: when every metadata argument passed to `configure_buildah_container`
is absent or empty — no working directory, environment variables, labels,
user, default command, ports or volumes — no external configuration command is
invoked at all and the operation returns the container name unchanged. -/
theorem configure_noop_when_all_empty (env : Env) (name : String)
    (wd user cmd : Option String) (hwd : pytruthy wd = false)
    (hu : pytruthy user = false) (hc : pytruthy cmd = false) :
    configure_buildah_container env name wd [] [] user cmd [] [] =
      (Except.ok name, []) := by
  simp [configure_buildah_container, configArgsOf, hwd, hu, hc]

/-- Witness for C9 at `working_dir = none`, `user = some ""` (falsy in
Python), `cmd = none`, empty collections. -/
theorem configure_noop_when_all_empty_witness :
    configure_buildah_container envOk "cont" none [] [] (some "") none [] [] =
      (Except.ok "cont", []) :=
  configure_noop_when_all_empty envOk "cont" none (some "") none rfl rfl rfl

/-- C5: `get_image_id` returns an absent result, rather than raising, both
when the inspection process fails because the resource does not exist and
when the inspected metadata lacks the `FromImageID` identity field. -/
theorem get_image_id_absent_not_raise (env : Env) (ref : String) :
    (env.run ["buildah", "inspect", "-t", "image", ref] = RunResult.procFail →
      (get_buildah_image_id env ref).1 = Except.ok none) ∧
    (∀ s m,
      env.run ["buildah", "inspect", "-t", "image", ref] = RunResult.output s →
      env.parse_json s = some m → m.lookup "FromImageID" = none →
      (get_buildah_image_id env ref).1 = Except.ok none) := by
  constructor
  · intro h
    simp [get_buildah_image_id, inspect_buildah_resource, h, graceful_get]
  · intro s m hrun hparse hlook
    simp [get_buildah_image_id, inspect_buildah_resource, hrun, hparse,
      graceful_get, hlook]

/-- Witness for C5: an image whose inspection fails yields absence, and an
image whose metadata lacks `FromImageID` yields absence. -/
theorem get_image_id_absent_not_raise_witness :
    (get_buildah_image_id envProcFail "img").1 = Except.ok none ∧
    (get_buildah_image_id envNoField "img").1 = Except.ok none :=
  ⟨(get_image_id_absent_not_raise envProcFail "img").1 rfl,
   (get_image_id_absent_not_raise envNoField "img").2 "out" [("Foo", "bar")]
     rfl rfl rfl⟩

/-- C10: inspection returns an absent result only when the external process
itself fails; when the process succeeds but its output is not valid JSON, the
parse error propagates as an exception out of `inspect_buildah_resource` and
out of `get_image_id`, instead of being converted to absence. -/
theorem inspect_absent_only_on_process_failure (env : Env) (rt rid ref : String) :
    ((inspect_buildah_resource env rt rid).1 = Except.ok none →
      env.run ["buildah", "inspect", "-t", rt, rid] = RunResult.procFail) ∧
    (∀ s,
      env.run ["buildah", "inspect", "-t", "image", ref] = RunResult.output s →
      env.parse_json s = none →
      (inspect_buildah_resource env "image" ref).1 =
        Except.error (Err.jsonDecodeError s) ∧
      (get_buildah_image_id env ref).1 = Except.error (Err.jsonDecodeError s)) := by
  constructor
  · intro h
    rcases hr : env.run ["buildah", "inspect", "-t", rt, rid] with _ | s
    · rfl
    · exfalso
      simp only [inspect_buildah_resource, hr] at h
      rcases hp : env.parse_json s with _ | m
      · simp [hp] at h
      · simp [hp] at h
  · intro s hrun hparse
    constructor
    · simp [inspect_buildah_resource, hrun, hparse]
    · simp [get_buildah_image_id, inspect_buildah_resource, hrun, hparse]

/-- Witness for C10: on a host whose inspection emits invalid JSON, the parse
error propagates; on a host whose inspection process fails, absence indeed
came from process failure. -/
theorem inspect_absent_only_on_process_failure_witness :
    envProcFail.run ["buildah", "inspect", "-t", "image", "img"] =
      RunResult.procFail ∧
    (inspect_buildah_resource envBadJson "image" "img").1 =
      Except.error (Err.jsonDecodeError "notjson") ∧
    (get_buildah_image_id envBadJson "img").1 =
      Except.error (Err.jsonDecodeError "notjson") :=
  ⟨(inspect_absent_only_on_process_failure envProcFail "image" "img" "x").1 rfl,
   ((inspect_absent_only_on_process_failure envBadJson "image" "x" "img").2
     "notjson" rfl rfl).1,
   ((inspect_absent_only_on_process_failure envBadJson "image" "x" "img").2
     "notjson" rfl rfl).2⟩

/-- C1: `create()` first invokes container creation from the current base
layer and then applies exactly the pre-commit metadata — working directory,
environment variables, exposed ports and labels, with user, default command
and volumes all absent — in at most one `buildah config` call (zero calls
when every pre-commit field is empty, one otherwise). -/
theorem create_applies_precommit_metadata (env : Env) (b : BuildahBuilder)
    (bv : List String) (s : String)
    (h : (create_buildah_container env b.build.base_layer b.ansible_host bv).1
      = Except.ok s) :
    (b.create env bv).2 =
      (create_buildah_container env b.build.base_layer b.ansible_host bv).2 ++
      (configure_buildah_container env b.ansible_host
        b.build.metadata.working_dir b.build.metadata.env_vars
        b.build.metadata.labels none none b.build.metadata.ports []).2 ∧
    (configure_buildah_container env b.ansible_host
      b.build.metadata.working_dir b.build.metadata.env_vars
      b.build.metadata.labels none none b.build.metadata.ports []).2.length
      ≤ 1 := by
  constructor
  · simp only [BuildahBuilder.create]
    rcases hc : create_buildah_container env b.build.base_layer b.ansible_host bv
      with ⟨r1, t1⟩
    rw [hc] at h
    cases r1 with
    | error e => exact absurd h (by simp)
    | ok _ =>
      rcases hg : configure_buildah_container env b.ansible_host
          b.build.metadata.working_dir b.build.metadata.env_vars
          b.build.metadata.labels none none b.build.metadata.ports []
        with ⟨r2, t2⟩
      cases r2 <;> simp
  · rw [configure_trace_eq]
    split <;> simp

/-- Witness for C1 at `envOk`, `builder0`, no build volumes. -/
theorem create_applies_precommit_metadata_witness :
    (create_buildah_container envOk builder0.build.base_layer
      builder0.ansible_host []).1 = Except.ok "" ∧
    ((builder0.create envOk []).2 =
      (create_buildah_container envOk builder0.build.base_layer
        builder0.ansible_host []).2 ++
      (configure_buildah_container envOk builder0.ansible_host
        builder0.build.metadata.working_dir builder0.build.metadata.env_vars
        builder0.build.metadata.labels none none
        builder0.build.metadata.ports []).2 ∧
    (configure_buildah_container envOk builder0.ansible_host
      builder0.build.metadata.working_dir builder0.build.metadata.env_vars
      builder0.build.metadata.labels none none
      builder0.build.metadata.ports []).2.length ≤ 1) :=
  ⟨rfl, create_applies_precommit_metadata envOk builder0 [] "" rfl⟩

/-- C8: the working container's name is the target image reference with
`"-cont"` appended, and the first external command of `create()` is the
`buildah from` invocation registering exactly that name. -/
theorem container_name_derived_from_target (env : Env) (build : Build)
    (b : BuildahBuilder) (h : BuildahBuilder.init env build = Except.ok b) :
    b.ansible_host = build.target_image ++ "-cont" ∧
    ∀ bv, (b.create env bv).2.head? = some
      (["buildah", "from"] ++ (if bv.isEmpty then [] else ["-v"] ++ bv)
        ++ ["--name", build.target_image ++ "-cont", build.base_layer]) := by
  have hb : b = { build := build, target_image := build.target_image,
                  ansible_host := build.target_image ++ "-cont" } := by
    rcases hres : env.buildah_resolves
    · simp [BuildahBuilder.init, buildah_command_exists, hres] at h
    · simp [BuildahBuilder.init, buildah_command_exists, hres] at h
      exact h.symm
  subst hb
  refine ⟨rfl, fun bv => ?_⟩
  simp only [BuildahBuilder.create]
  rcases hcc : create_buildah_container env build.base_layer
      (build.target_image ++ "-cont") bv with ⟨r1, t1⟩
  have ht1 : t1 = [["buildah", "from"]
      ++ (if bv.isEmpty then [] else ["-v"] ++ bv)
      ++ ["--name", build.target_image ++ "-cont", build.base_layer]] := by
    have := create_buildah_container_trace env build.base_layer
      (build.target_image ++ "-cont") bv
    rw [hcc] at this
    simpa using this
  cases r1 with
  | error e => simp [ht1]
  | ok _ =>
    rcases hg : configure_buildah_container env (build.target_image ++ "-cont")
        build.metadata.working_dir build.metadata.env_vars
        build.metadata.labels none none build.metadata.ports []
      with ⟨r2, t2⟩
    cases r2 <;> simp [ht1]

/-- Witness for C8: the spec's scenario — target `"myapp:latest"` yields the
working container name `"myapp:latest-cont"`, used by `buildah from`. -/
theorem container_name_derived_from_target_witness :
    builder0.ansible_host = "myapp:latest" ++ "-cont" ∧
    (builder0.create envOk []).2.head? = some
      (["buildah", "from"]
        ++ (if ([] : List String).isEmpty then [] else ["-v"] ++ ([] : List String))
        ++ ["--name", "myapp:latest" ++ "-cont", "fedora:39"]) := by
  have h := container_name_derived_from_target envOk build0 builder0 rfl
  exact ⟨h.1, h.2 []⟩

/-- C4 counterexample: on a host where `buildah rm` exits non-zero (e.g. the
working container is already gone), `clean()` raises the external command
failure instead of logging and swallowing it. -/
theorem clean_failure_propagates_cex :
    (builder0.clean envProcFail).1 = Except.error
      (Err.externalCommandFailed ["buildah", "rm", "myapp:latest-cont"]) := rfl

/-- C4 amended: `clean()` is exactly one uncaught `buildah rm` invocation —
it equals `runCmd` on `["buildah", "rm", <container>]` — so when that command
fails, the `CalledProcessError` (the spec's `ExternalCommandFailed`)
propagates to the caller. -/
theorem clean_propagates_external_failure (env : Env) (b : BuildahBuilder) :
    b.clean env = runCmd env ["buildah", "rm", b.ansible_host] ∧
    (env.run ["buildah", "rm", b.ansible_host] = RunResult.procFail →
      (b.clean env).1 = Except.error
        (Err.externalCommandFailed ["buildah", "rm", b.ansible_host])) := by
  refine ⟨rfl, fun h => ?_⟩
  simp [BuildahBuilder.clean, buildah, runCmd, h]

/-- Witness for C4's amended theorem on a distinct container name. -/
theorem clean_propagates_external_failure_witness :
    (({ build := build0, target_image := "t", ansible_host := "cont-x" }
        : BuildahBuilder).clean envProcFail).1 = Except.error
      (Err.externalCommandFailed ["buildah", "rm", "cont-x"]) :=
  (clean_propagates_external_failure envProcFail
    { build := build0, target_image := "t", ansible_host := "cont-x" }).2 rfl

/-- C7 counterexample: when the inspected metadata carries `FromImageID = ""`,
`get_image_id` returns a non-absent result yet `is_image_present` returns
`False` — the code tests Python truthiness, not absence. -/
theorem is_image_present_cex :
    (builder0.get_image_id envEmptyId "img").1 = Except.ok (some "") ∧
    (builder0.is_image_present envEmptyId "img").1 = Except.ok false :=
  ⟨rfl, rfl⟩

/-- C7 amended: `is_image_present` returns the Python truthiness of the
`get_image_id` result — `True` exactly when that result is non-absent and
non-empty. -/
theorem is_image_present_truthiness (env : Env) (b : BuildahBuilder)
    (ref : String) :
    b.is_image_present env ref =
      ((b.get_image_id env ref).1.map pytruthy, (b.get_image_id env ref).2) ∧
    ∀ o, (b.get_image_id env ref).1 = Except.ok o →
      ((b.is_image_present env ref).1 = Except.ok true ↔
        o ≠ none ∧ o ≠ some "") := by
  constructor
  · simp only [BuildahBuilder.is_image_present]
    rcases hg : b.get_image_id env ref with ⟨r, t⟩
    cases r <;> simp [Except.map]
  · intro o ho
    simp only [BuildahBuilder.is_image_present]
    rcases hg : b.get_image_id env ref with ⟨r, t⟩
    rw [hg] at ho
    cases r with
    | error e => exact absurd ho (by simp)
    | ok o2 =>
      have heq : o2 = o := by simpa using ho
      rw [heq]
      rcases o with _ | s
      · simp [pytruthy]
      · simp [pytruthy]

/-- Witness for C7's amended theorem: a present image with a non-empty
identifier is reported present. -/
theorem is_image_present_truthiness_witness :
    (builder0.is_image_present envOk "img").1 = Except.ok true :=
  ((is_image_present_truthiness envOk builder0 "img").2 (some "sha256:abc")
    rfl).mpr (by simp)

/-- C3 counterexample: with the run-engine binary unresolvable
(`podman_resolves = false`), interpreter resolution — a lifecycle operation
that invokes the run engine — proceeds, invokes an external command and
succeeds, instead of failing fast with `DependencyMissing`. -/
theorem missing_run_engine_not_checked_cex :
    envNoPodman.podman_resolves = false ∧
    (builder0.find_python_interpreter envNoPodman).1 =
      Except.ok "/usr/bin/python3" ∧
    (builder0.find_python_interpreter envNoPodman).2 =
      [["podman", "run", "--rm", "fedora:39", "ls", "/usr/bin/python3"]] :=
  ⟨rfl, rfl, rfl⟩

/-- C3 amended: the build-engine binary is verified at builder construction —
hence before any lifecycle operation — failing with
`DependencyMissing "buildah"`; the run-engine binary is verified only by
`pull()`, which fails with `DependencyMissing "podman"` before invoking any
command; the remaining operations do not verify the run engine. -/
theorem dependency_checks (env : Env) (build : Build) (b : BuildahBuilder) :
    (env.buildah_resolves = false →
      BuildahBuilder.init env build =
        Except.error (Err.dependencyMissing "buildah")) ∧
    (env.podman_resolves = false →
      b.pull env = (Except.error (Err.dependencyMissing "podman"), [])) := by
  constructor
  · intro h
    simp [BuildahBuilder.init, buildah_command_exists, h]
  · intro h
    simp [BuildahBuilder.pull, podman_command_exists, h]

/-- Witness for C3's amended theorem on a host with neither binary. -/
theorem dependency_checks_witness :
    BuildahBuilder.init envNoBinaries build0 =
      Except.error (Err.dependencyMissing "buildah") ∧
    builder0.pull envNoBinaries =
      (Except.error (Err.dependencyMissing "podman"), []) :=
  ⟨(dependency_checks envNoBinaries build0 builder0).1 rfl,
   (dependency_checks envNoBinaries build0 builder0).2 rfl⟩

/-- When no external command exits non-zero, every run produces output. -/
theorem run_output_exists (env : Env)
    (h : ∀ argv, env.run argv ≠ RunResult.procFail) (argv : Argv) :
    ∃ s, env.run argv = RunResult.output s := by
  rcases hr : env.run argv with _ | s
  · exact absurd hr (h argv)
  · exact ⟨s, rfl⟩

/-- The probe loop returns the first candidate whose probe succeeds (or the
no-interpreter error), and its trace is exactly the probes of the failing
prefix plus the first success. -/
theorem findPythonLoop_spec (env : Env) (image : String) (l : List String) :
    ((findPythonLoop env image l).1 =
      match l.find? (probeOk env image) with
      | some i => Except.ok i
      | none => Except.error (Err.noInterpreterFound image)) ∧
    (findPythonLoop env image l).2 =
      ((l.takeWhile (fun i => !probeOk env image i))
        ++ (l.dropWhile (fun i => !probeOk env image i)).take 1).map
        (fun i => ["podman", "run", "--rm", image, "ls", i]) := by
  induction l with
  | nil => exact ⟨rfl, rfl⟩
  | cons i rest ih =>
    rcases hp : probeOk env image i
    case false =>
      have hrun : env.run ["podman", "run", "--rm", image, "ls", i] =
          RunResult.procFail := by
        unfold probeOk at hp
        rcases hr : env.run ["podman", "run", "--rm", image, "ls", i] with _ | s
        · rfl
        · rw [hr] at hp; simp at hp
      have key : findPythonLoop env image (i :: rest) =
          ((findPythonLoop env image rest).1,
            ["podman", "run", "--rm", image, "ls", i]
              :: (findPythonLoop env image rest).2) := by
        simp only [findPythonLoop, podmanRunCmd, runCmd, List.cons_append,
          List.nil_append]
        rw [hrun]
        rcases findPythonLoop env image rest with ⟨r, t2⟩
        rfl
      constructor
      · rw [key, List.find?_cons_of_neg _ (by simp [hp]), ih.1]
      · rw [key]
        simp only [List.takeWhile_cons, List.dropWhile_cons, hp]
        simp [ih.2]
    case true =>
      obtain ⟨s, hrun⟩ : ∃ s,
          env.run ["podman", "run", "--rm", image, "ls", i] =
            RunResult.output s := by
        unfold probeOk at hp
        rcases hr : env.run ["podman", "run", "--rm", image, "ls", i] with _ | s
        · rw [hr] at hp; simp at hp
        · exact ⟨s, rfl⟩
      have key : findPythonLoop env image (i :: rest) =
          (Except.ok i, [["podman", "run", "--rm", image, "ls", i]]) := by
        simp only [findPythonLoop, podmanRunCmd, runCmd, List.cons_append,
          List.nil_append]
        rw [hrun]
      constructor
      · rw [key, List.find?_cons_of_pos _ hp]
      · rw [key]
        simp only [List.takeWhile_cons, List.dropWhile_cons, hp]
        simp

/-- C6: `find_python_interpreter` probes the prioritized candidate paths in
order inside throwaway runs of the base image, returns the first path whose
probe succeeds without probing any later candidate, and when every probe
fails it raises the no-interpreter error naming the base image. -/
theorem find_python_interpreter_first_success (env : Env) (b : BuildahBuilder) :
    ((b.find_python_interpreter env).1 =
      match b.build.python_interpr_prio.find? (probeOk env b.build.base_image) with
      | some i => Except.ok i
      | none => Except.error (Err.noInterpreterFound b.build.base_image)) ∧
    (b.find_python_interpreter env).2 =
      ((b.build.python_interpr_prio.takeWhile
          (fun i => !probeOk env b.build.base_image i))
        ++ (b.build.python_interpr_prio.dropWhile
          (fun i => !probeOk env b.build.base_image i)).take 1).map
        (fun i => ["podman", "run", "--rm", b.build.base_image, "ls", i]) :=
  findPythonLoop_spec env b.build.base_image b.build.python_interpr_prio

/-- A `buildah commit` line is not a `buildah config` line. -/
theorem isConfigCmd_commit (l : List String) :
    isConfigCmd ("buildah" :: "commit" :: l) = false := rfl

/-- A `buildah inspect` line is not a `buildah config` line. -/
theorem isConfigCmd_inspect (l : List String) :
    isConfigCmd ("buildah" :: "inspect" :: l) = false := rfl

/-- A `buildah config` line is a `buildah config` line. -/
theorem isConfigCmd_config (l : List String) :
    isConfigCmd ("buildah" :: "config" :: l) = true := rfl

/-- When the commit-phase guard holds, the second configuration call has a
non-empty argument list (so the `buildah config` command is actually run). -/
theorem commitCond_config_args_ne_nil (m : ImageMetadata)
    (h : commitCond m = true) :
    configArgsOf none [] [] m.user m.cmd [] m.volumes ≠ [] := by
  intro hnil
  unfold commitCond at h
  simp only [Bool.or_eq_true] at h
  unfold configArgsOf at hnil
  simp only [pytruthy, List.map_nil, List.flatten_nil, List.nil_append,
    List.append_eq_nil, if_neg, Bool.not_eq_true] at hnil
  rcases h with (hu | hc) | hv
  · rcases hmu : m.user with _ | u
    · rw [hmu] at hu; simp [pytruthy] at hu
    · rw [hmu] at hu hnil
      simp [pytruthy] at hu
      simp [hu] at hnil
  · rcases hmc : m.cmd with _ | c
    · rw [hmc] at hc; simp [pytruthy] at hc
    · rw [hmc] at hc hnil
      simp [pytruthy] at hc
      simp [hc] at hnil
  · rcases hmv : m.volumes with _ | ⟨v, vs⟩
    · rw [hmv] at hv; simp at hv
    · rw [hmv] at hnil
      simp at hnil

/-- C2: `commit(image_name)` applies a second configuration call for exactly
the fields user, default command and volumes if and only if at least one of
them is set in the build specification, then commits the working container to
the named image, and returns the image identifier obtained by inspecting that
image name. (Stated on the success path: no external command exits
non-zero.) -/
theorem commit_second_phase (env : Env) (b : BuildahBuilder)
    (image_name : String)
    (h : ∀ argv, env.run argv ≠ RunResult.procFail) :
    (b.commit env image_name).1 = (get_buildah_image_id env image_name).1 ∧
    (b.commit env image_name).2 =
      (if commitCond b.build.metadata then
        (configure_buildah_container env b.ansible_host none [] []
          b.build.metadata.user b.build.metadata.cmd []
          b.build.metadata.volumes).2
       else [])
      ++ [["buildah", "commit", b.ansible_host, image_name]]
      ++ (get_buildah_image_id env image_name).2 ∧
    ((b.commit env image_name).2.filter isConfigCmd ≠ [] ↔
      commitCond b.build.metadata = true) := by
  obtain ⟨s₂, hs₂⟩ := run_output_exists env h
    ["buildah", "commit", b.ansible_host, image_name]
  rcases hg : get_buildah_image_id env image_name with ⟨rg, tg⟩
  have htg : tg = [["buildah", "inspect", "-t", "image", image_name]] := by
    have := get_image_id_trace env image_name
    rw [hg] at this
    simpa using this
  by_cases hcond : commitCond b.build.metadata = true
  · rcases hcfg : configure_buildah_container env b.ansible_host none [] []
        b.build.metadata.user b.build.metadata.cmd [] b.build.metadata.volumes
      with ⟨rc, tc⟩
    have hrc : rc = Except.ok b.ansible_host := by
      have := configure_ok_of_run env h b.ansible_host none [] []
        b.build.metadata.user b.build.metadata.cmd [] b.build.metadata.volumes
      rw [hcfg] at this
      exact this
    have htc : tc = [["buildah", "config"]
        ++ configArgsOf none [] [] b.build.metadata.user b.build.metadata.cmd []
          b.build.metadata.volumes ++ [b.ansible_host]] := by
      have := configure_trace_eq env b.ansible_host none [] []
        b.build.metadata.user b.build.metadata.cmd [] b.build.metadata.volumes
      rw [hcfg] at this
      simp only at this
      rw [this]
      have hne := commitCond_config_args_ne_nil b.build.metadata hcond
      simp [hne]
    have hval : b.commit env image_name =
        (rg, tc ++ [["buildah", "commit", b.ansible_host, image_name]] ++ tg) := by
      simp only [BuildahBuilder.commit, hcond, if_true]
      rw [hcfg, hrc]
      simp only [buildah, runCmd, List.cons_append, List.nil_append]
      rw [hs₂, hg]
    refine ⟨?_, ?_, ?_⟩
    · rw [hval]
    · rw [hval]
      simp [hcond]
    · rw [hval, htc, htg]
      simp only [List.filter_append, List.cons_append, List.filter_cons,
        isConfigCmd_config, isConfigCmd_commit, isConfigCmd_inspect]
      simp [hcond]
  · have hcond' : commitCond b.build.metadata = false := by
      simpa using hcond
    have hval : b.commit env image_name =
        (rg, [["buildah", "commit", b.ansible_host, image_name]] ++ tg) := by
      simp only [BuildahBuilder.commit, hcond', Bool.false_eq_true, if_false]
      simp only [buildah, runCmd, List.cons_append, List.nil_append]
      rw [hs₂, hg]
      simp
    refine ⟨?_, ?_, ?_⟩
    · rw [hval]
    · rw [hval]
      simp [hcond']
    · rw [hval, htg]
      simp only [List.filter_append, List.cons_append, List.filter_cons,
        isConfigCmd_commit, isConfigCmd_inspect]
      simp [hcond']

/-- Witness for C2 at `envOk` and `builder0` (whose specification sets user,
cmd and volumes): the commit result is the inspected image identifier, and a
`buildah config` call is present in the trace. -/
theorem commit_second_phase_witness :
    (builder0.commit envOk "final").1 = Except.ok (some "sha256:abc") ∧
    ((builder0.commit envOk "final").2.filter isConfigCmd ≠ [] ↔
      commitCond builder0.build.metadata = true) :=
  ⟨((commit_second_phase envOk builder0 "final"
      (fun argv => by simp [envOk])).1).trans rfl,
   (commit_second_phase envOk builder0 "final"
      (fun argv => by simp [envOk])).2.2⟩
